import Mathlib

/-!
Verification development for the certificate verification decision engine.

The verification engine (field normalizer, QR payload decoder, record
resolver, integrity comparator, verdict assembler) lives in the Flask
backend (`backend/app.py`, `backend/db/store.py`), which is not part of the
shipped sources; it is modelled here from the specification.  The frontend
field-submission logic is embedded directly from the Next.js verify pages.
-/

namespace OcrVerify

/-! ## Character-level helpers for normalization and case folding -/

/-- Lower-casing of one character, as performed by the host case fold
(ASCII letters `A`–`Z` map to `a`–`z`, all other characters unchanged). -/
def lowerChar (c : Char) : Char := c.toLower

/-- Lower-casing of a whole string, used for case-insensitive comparison
of certificate ids and hex digests. -/
def lowerStr (s : String) : String := String.mk (s.data.map lowerChar)

/-- Modelled from the spec: the Field Normalizer (`normalize` in
`backend/db/store.py`, absent from the shipped sources).  Lower-cases and
strips all whitespace; leaves no other characters altered. -/
def normalize (s : String) : String :=
  String.mk ((s.data.map lowerChar).filter (fun c => !c.isWhitespace))

/-! ## Data model -/

/-- The canonical stored entity of the record store. -/
structure CertificateRecord where
  certificateId : String
  name : String
  rollNumber : String
  course : String
  issueDate : String
  issuer : String
  contentDigest : Option String
  issuerId : Option String
deriving DecidableEq

/-- Structured result of parsing a QR payload. -/
structure QRClaim where
  claimedId : Option String
  claimedDigest : Option String
deriving DecidableEq

/-- The empty QR claim, returned when no decoding yields usable data. -/
def emptyClaim : QRClaim := ⟨none, none⟩

/-- How the resolver matched a record. -/
inductive MatchedBy where
  | qr
  | certificate_id
  | fields
  | none
deriving DecidableEq

/-- The primary verdict: does a matching record exist? -/
inductive Verdict where
  | valid
  | not_found
deriving DecidableEq

/-- Outcome of the integrity comparison of two optional digests. -/
inductive Integrity where
  | digestMatch
  | digestMismatch
  | unknown
deriving DecidableEq

/-- Output of one verification attempt. -/
structure VerificationResult where
  verdict : Verdict
  matchedBy : MatchedBy
  integrity : Integrity
  qrVerified : Bool
  record : Option CertificateRecord
deriving DecidableEq

/-! ## QR payload decoding (structural, kernel-computable) -/

/-- Split a character list on a separator character.  Always returns at
least one (possibly empty) chunk. -/
def splitOnChar (sep : Char) : List Char → List (List Char)
  | [] => [[]]
  | c :: rest =>
    let r := splitOnChar sep rest
    if c = sep then [] :: r
    else
      match r with
      | [] => [[c]]
      | h :: t => (c :: h) :: t

/-- Strip leading and trailing whitespace from a character list. -/
def trimChars (l : List Char) : List Char :=
  ((l.dropWhile Char.isWhitespace).reverse.dropWhile Char.isWhitespace).reverse

/-- Remove one matching pair of double quotes around a trimmed token. -/
def unquote (l : List Char) : List Char :=
  let t := trimChars l
  match t with
  | '\"' :: rest =>
    match rest.getLast? with
    | some '\"' => rest.dropLast
    | _ => t
  | _ => t

/-- Split a raw body into `key`/`value` pairs using the given pair and
key-value separators; chunks that are not a single `key`/`value` split are
ignored. -/
def kvPairs (pairSep eqSep : Char) (body : List Char) : List (String × String) :=
  (splitOnChar pairSep body).filterMap fun chunk =>
    match splitOnChar eqSep chunk with
    | [k, v] => some (String.mk (unquote k), String.mk (unquote v))
    | _ => Option.none

/-- Build a claim from decoded key/value pairs; usable only if at least one
of the `certificate_id` or `file_hash` keys is present. -/
def claimOfPairs (pairs : List (String × String)) : Option QRClaim :=
  let idv := (pairs.find? (fun p => p.1 = "certificate_id")).map Prod.snd
  let dgv := (pairs.find? (fun p => p.1 = "file_hash")).map Prod.snd
  if idv.isSome || dgv.isSome then some ⟨idv, dgv⟩ else Option.none

/-- Modelled from the spec: structured (self-describing key/value)
decoding of a QR payload, the first strategy of the QR Payload Parser in
`backend/app.py` (absent from the shipped sources). -/
def tryStructured (raw : String) : Option QRClaim :=
  let t := trimChars raw.data
  match t with
  | '\x7b' :: rest =>
    match rest.getLast? with
    | some '\x7d' => claimOfPairs (kvPairs ',' ':' rest.dropLast)
    | _ => Option.none
  | _ => Option.none

/-- Modelled from the spec: query-string (`key=value&key=value`) decoding
of a QR payload, the second strategy of the QR Payload Parser in
`backend/app.py` (absent from the shipped sources).  For URL-shaped
payloads only the part after the last `?` is decoded. -/
def tryQueryString (raw : String) : Option QRClaim :=
  let q := (splitOnChar '?' raw.data).getLastD raw.data
  claimOfPairs (kvPairs '&' '=' q)

/-- Modelled from the spec: bare-token fallback of the QR Payload Parser
in `backend/app.py` (absent from the shipped sources): a single opaque
token is taken whole as the claimed id. -/
def bareToken (raw : String) : Option QRClaim :=
  if raw ≠ "" ∧ raw.data.all (fun c => !c.isWhitespace) then
    some ⟨some raw, Option.none⟩
  else Option.none

/-- Modelled from the spec: the QR Payload Parser of `backend/app.py`
(absent from the shipped sources).  Tries structured decoding, then
query-string decoding, then the bare-token fallback; if none yields usable
data it returns the empty claim instead of failing. -/
def parseQR (raw : String) : QRClaim :=
  match tryStructured raw with
  | some c => c
  | Option.none =>
    match tryQueryString raw with
    | some c => c
    | Option.none =>
      match bareToken raw with
      | some c => c
      | Option.none => emptyClaim

/-! ## Record resolver -/

/-- Modelled from the spec: the record store's case-insensitive exact
lookup (`get_by_certificate_id` in `backend/db/store.py`, absent from the
shipped sources), over a store snapshot modelled as a list of records. -/
def findByIdCI (store : List CertificateRecord) (id : String) : Option CertificateRecord :=
  store.find? (fun r => lowerStr r.certificateId = lowerStr id)

/-- Does a record match one supplied field under normalization?  A field
that is not supplied is a wildcard. -/
def matchesField (sup : Option String) (stored : String) : Bool :=
  match sup with
  | some s => normalize s = normalize stored
  | Option.none => true

/-- Does a record match all supplied identity fields under normalization? -/
def fieldsMatch (r : CertificateRecord) (n ro co : Option String) : Bool :=
  matchesField n r.name && matchesField ro r.rollNumber && matchesField co r.course

/-- Outcome of record resolution: the found record with its match kind,
plus the ambiguity flag for the many-candidates case. -/
structure Resolution where
  found : Option (CertificateRecord × MatchedBy)
  ambiguous : Bool
deriving DecidableEq

/-- Modelled from the spec: the by-normalized-fields step of the Record
Resolver (`find_candidate` in `backend/db/store.py`, absent from the
shipped sources).  Exactly one candidate is a match; zero is no match;
more than one is no match with the ambiguity flag set. -/
def resolveFields (store : List CertificateRecord) (n ro co : Option String) : Resolution :=
  if n.isSome || ro.isSome || co.isSome then
    match store.filter (fun r => fieldsMatch r n ro co) with
    | [] => ⟨Option.none, false⟩
    | [r] => ⟨some (r, MatchedBy.fields), false⟩
    | _ => ⟨Option.none, true⟩
  else ⟨Option.none, false⟩

/-- The effective certificate id and the match kind it would produce: a
supplied certificate id wins; otherwise a QR-claimed id is adopted. -/
def effectiveId (cid qid : Option String) : Option (String × MatchedBy) :=
  match cid with
  | some c => some (c, MatchedBy.certificate_id)
  | Option.none =>
    match qid with
    | some q => some (q, MatchedBy.qr)
    | Option.none => Option.none

/-- Modelled from the spec: the Record Resolver of `backend/app.py`
(absent from the shipped sources).  Precedence: effective-id lookup (id
supplied directly, else taken from the QR claim) short-circuits on a hit;
otherwise the normalized-fields query runs. -/
def resolve (store : List CertificateRecord) (cid qid n ro co : Option String) : Resolution :=
  match effectiveId cid qid with
  | some (id, mb) =>
    match findByIdCI store id with
    | some r => ⟨some (r, mb), false⟩
    | Option.none => resolveFields store n ro co
  | Option.none => resolveFields store n ro co

/-! ## Integrity comparator -/

/-- Modelled from the spec: the Integrity Comparator of `backend/app.py`
(absent from the shipped sources).  `unknown` when either side is absent;
otherwise case-insensitive comparison of the two hex strings. -/
def compareDigests (observed stored : Option String) : Integrity :=
  match observed, stored with
  | some o, some s =>
    if lowerStr o = lowerStr s then Integrity.digestMatch else Integrity.digestMismatch
  | _, _ => Integrity.unknown

/-! ## Verdict assembler -/

/-- By-artifact input as the assembler sees it: the externally computed
content digest plus externally extracted hints (the core consumes
hasher/extractor output, it does not compute it). -/
structure ArtifactData where
  observedDigest : String
  hintId : Option String
  extractedId : Option String
  qrPayload : Option String
deriving DecidableEq

/-- By-fields input: a partial set of identity fields plus an optional
caller-asserted digest and an optional raw QR payload. -/
structure FieldsData where
  certificateId : Option String
  name : Option String
  rollNumber : Option String
  course : Option String
  fileHash : Option String
  qrPayload : Option String
deriving DecidableEq

/-- A raw request before shape validation; a well-formed request carries
exactly one of the two shapes. -/
structure RawRequest where
  artifact : Option ArtifactData
  fields : Option FieldsData
deriving DecidableEq

/-- The raw QR payload carried by a request, whichever shape is active. -/
def qrPayloadOf (req : RawRequest) : Option String :=
  match req.artifact with
  | some a => a.qrPayload
  | Option.none =>
    match req.fields with
    | some f => f.qrPayload
    | Option.none => Option.none

/-- The QR claim of a request: the parse of its payload when one is
supplied, the empty claim otherwise. -/
def claimOf (req : RawRequest) : QRClaim :=
  match qrPayloadOf req with
  | some raw => parseQR raw
  | Option.none => emptyClaim

/-- The directly supplied certificate id of a request: the caller-supplied
id, else the extractor's candidate for by-artifact requests. -/
def suppliedIdOf (req : RawRequest) : Option String :=
  match req.artifact with
  | some a =>
    match a.hintId with
    | some c => some c
    | Option.none => a.extractedId
  | Option.none =>
    match req.fields with
    | some f => f.certificateId
    | Option.none => Option.none

/-- The identity fields of a request (by-fields shape only). -/
def fieldsOf (req : RawRequest) : Option String × Option String × Option String :=
  match req.fields with
  | some f => (f.name, f.rollNumber, f.course)
  | Option.none => (Option.none, Option.none, Option.none)

/-- The observed digest available for the integrity comparison: the
computed digest of an uploaded artifact, else the caller-asserted digest. -/
def observedOf (req : RawRequest) : Option String :=
  match req.artifact with
  | some a => some a.observedDigest
  | Option.none =>
    match req.fields with
    | some f => f.fileHash
    | Option.none => Option.none

/-- The record resolution performed for a request. -/
def resolutionOf (store : List CertificateRecord) (req : RawRequest) : Resolution :=
  resolve store (suppliedIdOf req) (claimOf req).claimedId
    (fieldsOf req).1 (fieldsOf req).2.1 (fieldsOf req).2.2

/-- Does the QR claim corroborate the matched record?  True when the
claimed id equals the record's id case-insensitively or the claimed digest
equals the record's stored digest. -/
def qrAgrees (claim : QRClaim) (r : CertificateRecord) : Bool :=
  (match claim.claimedId with
   | some i => lowerStr i = lowerStr r.certificateId
   | Option.none => false) ||
  (match claim.claimedDigest, r.contentDigest with
   | some d, some s => d = s
   | _, _ => false)

/-- The terminal result when no record was found. -/
def notFoundResult : VerificationResult :=
  ⟨Verdict.not_found, MatchedBy.none, Integrity.unknown, false, Option.none⟩

/-- Modelled from the spec: the Verdict Assembler of `backend/app.py`
(absent from the shipped sources).  Resolution failure is terminal;
otherwise the verdict is `valid` and the integrity and QR signals are
attached. -/
def assemble (store : List CertificateRecord) (req : RawRequest) : VerificationResult :=
  match (resolutionOf store req).found with
  | Option.none => notFoundResult
  | some (r, mb) =>
    ⟨Verdict.valid, mb, compareDigests (observedOf req) r.contentDigest,
     (qrPayloadOf req).isSome && qrAgrees (claimOf req) r, some r⟩

/-- Is an optional request field supplied with a non-empty value? -/
def suppliedStr (o : Option String) : Bool :=
  match o with
  | some s => s ≠ ""
  | Option.none => false

/-- Structural well-formedness of a raw request: exactly one shape active,
and the by-fields shape carries at least one non-empty field. -/
def wellFormedReq (req : RawRequest) : Bool :=
  match req.artifact, req.fields with
  | some _, Option.none => true
  | Option.none, some f =>
    suppliedStr f.certificateId || suppliedStr f.name ||
      suppliedStr f.rollNumber || suppliedStr f.course
  | _, _ => false

/-- Structured errors escaping the verification API. -/
inductive ApiError where
  | malformed
  | storeUnavailable
deriving DecidableEq

/-- Modelled from the spec: the verification API boundary of
`backend/app.py` (absent from the shipped sources).  Structurally invalid
requests are rejected before the resolver runs; otherwise the assembler
produces a complete result. -/
def handleRequest (store : List CertificateRecord) (req : RawRequest) :
    Except ApiError VerificationResult :=
  if wellFormedReq req then Except.ok (assemble store req)
  else Except.error ApiError.malformed

/-- Store snapshot invariant: certificate ids are unique under
case-insensitive comparison. -/
def StoreWF (store : List CertificateRecord) : Prop :=
  store.Pairwise (fun a b => lowerStr a.certificateId ≠ lowerStr b.certificateId)

/-! ## Frontend field submission (embedded from the verify pages) -/

/-- The four controlled inputs of the by-fields verification form. -/
structure FormFields where
  certificate_id : String
  name : String
  roll_number : String
  course : String
deriving DecidableEq

/-- The outgoing JSON payload built by `submitFields` in the verify pages:
each key is added only when its form field is truthy, and a string is
truthy exactly when it is non-empty. -/
def submitFieldsPayload (f : FormFields) : List (String × String) :=
  (if f.certificate_id ≠ "" then [("certificate_id", f.certificate_id)] else []) ++
  (if f.name ≠ "" then [("name", f.name)] else []) ++
  (if f.roll_number ≠ "" then [("roll_number", f.roll_number)] else []) ++
  (if f.course ≠ "" then [("course", f.course)] else [])

/-! ## Sample data for concrete witnesses -/

/-- Sample stored record used by the concrete witnesses. -/
def recX1 : CertificateRecord :=
  ⟨"X1", "Amit Kumar", "R1", "B.Tech CSE", "2022-01-01", "JH Univ", some "abc123", Option.none⟩

/-- A second sample record sharing the same normalized name as `recX1`. -/
def recA3 : CertificateRecord :=
  ⟨"A3", "amit kumar", "R3", "MBA", "2022-02-02", "JH Univ", Option.none, Option.none⟩

/-- A third sample record with a distinct id. -/
def recY2 : CertificateRecord :=
  ⟨"Y2", "Beth Roy", "R2", "B.Sc", "2022-01-02", "JH Univ", Option.none, Option.none⟩

/-- Sample by-fields request carrying a certificate id and a QR payload. -/
def reqC3 : RawRequest :=
  ⟨Option.none, some ⟨some "X1", Option.none, Option.none, Option.none, Option.none, some "X1"⟩⟩

/-- Sample by-fields request for an id absent from the store. -/
def reqC5 : RawRequest :=
  ⟨Option.none, some ⟨some "NOPE", Option.none, Option.none, Option.none, Option.none, some "X1"⟩⟩

/-- Sample by-fields request looking up `recX1` by id. -/
def reqC8 : RawRequest :=
  ⟨Option.none, some ⟨some "x1", Option.none, Option.none, Option.none, Option.none, Option.none⟩⟩


lemma char_toNat_ofNat_of_valid {n : Nat} (h : n < 0xd800) : (Char.ofNat n).toNat = n := by
  rw [Char.ofNat, dif_pos (Or.inl h)]
  simp [Char.ofNatAux, Char.toNat, UInt32.toNat]

lemma lowerChar_toNat (c : Char) :
    (lowerChar c).toNat = if 65 ≤ c.toNat ∧ c.toNat ≤ 90 then c.toNat + 32 else c.toNat := by
  rw [lowerChar, Char.toLower]
  split
  · rename_i h
    rw [char_toNat_ofNat_of_valid (by omega)]
  · rfl

lemma lowerChar_eq_self_of_not_upper (c : Char) (h : ¬ (65 ≤ c.toNat ∧ c.toNat ≤ 90)) :
    lowerChar c = c := by
  rw [lowerChar, Char.toLower]
  split
  · rename_i h2; exact absurd h2 h
  · rfl

lemma lowerChar_idem (c : Char) : lowerChar (lowerChar c) = lowerChar c := by
  apply lowerChar_eq_self_of_not_upper
  rw [lowerChar_toNat]
  split <;> omega

lemma map_eq_self_of_fixed {α : Type} (f : α → α) :
    ∀ (l : List α), (∀ x ∈ l, f x = x) → l.map f = l
  | [], _ => rfl
  | a :: t, h => by
    have ha : f a = a := h a (by simp)
    have ht := map_eq_self_of_fixed f t (fun x hx => h x (by simp [hx]))
    simp [ha, ht]

/-- Claim C9: the Field Normalizer is an idempotent pure function — for
every string, lower-casing and whitespace-stripping applied twice equals
applying it once, and the empty string maps to itself. -/
theorem normalize_idempotent :
    (∀ x : String, normalize (normalize x) = normalize x) ∧ normalize "" = "" := by
  constructor
  · intro x
    show String.mk _ = String.mk _
    congr 1
    set l1 := (x.data.map lowerChar).filter (fun c => !c.isWhitespace) with hl1
    have hdata : (normalize x).data = l1 := rfl
    rw [hdata]
    have hfix : l1.map lowerChar = l1 := by
      apply map_eq_self_of_fixed
      intro c hc
      have hc2 : c ∈ x.data.map lowerChar := List.mem_of_mem_filter hc
      obtain ⟨y, _, hy⟩ := List.mem_map.mp hc2
      rw [← hy, lowerChar_idem]
    rw [hfix]
    apply List.filter_eq_self.mpr
    intro a ha
    rw [hl1] at ha
    exact (List.mem_filter.mp ha).2
  · rfl


lemma findByIdCI_some_lower {store : List CertificateRecord} {q : String} {r : CertificateRecord}
    (h : findByIdCI store q = some r) : lowerStr r.certificateId = lowerStr q := by
  rw [findByIdCI] at h
  have hp := List.find?_some h
  exact of_decide_eq_true hp

/-- Claim C1: resolver precedence.  With no supplied certificate id, a
QR-claimed id becomes the effective id and a hit matches by `qr`; a
supplied id matches by `certificate_id`; an effective-id hit
short-circuits field matching entirely; only when the effective id is
absent or misses is the normalized-fields query consulted. -/
theorem resolver_precedence (store : List CertificateRecord) (cid qid n ro co : Option String) :
    (∀ q r, cid = Option.none → qid = some q → findByIdCI store q = some r →
      resolve store cid qid n ro co = ⟨some (r, MatchedBy.qr), false⟩ ∧
        lowerStr r.certificateId = lowerStr q) ∧
    (∀ c r, cid = some c → findByIdCI store c = some r →
      resolve store cid qid n ro co = ⟨some (r, MatchedBy.certificate_id), false⟩ ∧
        lowerStr r.certificateId = lowerStr c) ∧
    (∀ id mb, effectiveId cid qid = some (id, mb) → findByIdCI store id = Option.none →
      resolve store cid qid n ro co = resolveFields store n ro co) ∧
    (cid = Option.none → qid = Option.none →
      resolve store cid qid n ro co = resolveFields store n ro co) := by
  refine ⟨?_, ?_, ?_, ?_⟩
  · rintro q r rfl rfl hfind
    exact ⟨by simp [resolve, effectiveId, hfind], findByIdCI_some_lower hfind⟩
  · rintro c r rfl hfind
    exact ⟨by simp [resolve, effectiveId, hfind], findByIdCI_some_lower hfind⟩
  · intro id mb heff hnone
    simp [resolve, heff, hnone]
  · rintro rfl rfl
    simp [resolve, effectiveId]

/-- Claim C4: the Integrity Comparator returns `unknown` exactly when at
least one digest is absent, and decides `match`/`mismatch` by
case-insensitive comparison when both are present. -/
theorem integrity_comparator_spec (o s : Option String) :
    (compareDigests o s = Integrity.unknown ↔ o = Option.none ∨ s = Option.none) ∧
    (∀ a b, o = some a → s = some b →
      (compareDigests o s = Integrity.digestMatch ↔ lowerStr a = lowerStr b) ∧
      (compareDigests o s = Integrity.digestMismatch ↔ lowerStr a ≠ lowerStr b)) := by
  constructor
  · match o, s with
    | Option.none, Option.none => simp [compareDigests]
    | Option.none, some b => simp [compareDigests]
    | some a, Option.none => simp [compareDigests]
    | some a, some b =>
      simp only [compareDigests]
      constructor
      · intro h
        split at h <;> simp_all
      · rintro (h | h) <;> simp_all
  · rintro a b rfl rfl
    by_cases h : lowerStr a = lowerStr b <;> simp [compareDigests, h]

/-- Claim C5: when the resolver finds no record the result is exactly
`not_found`/`none`/`unknown`/`qrVerified = false` with no record attached,
regardless of any QR claim content carried by the request. -/
theorem not_found_terminal (store : List CertificateRecord) (req : RawRequest)
    (h : (resolutionOf store req).found = Option.none) :
    assemble store req =
      ⟨Verdict.not_found, MatchedBy.none, Integrity.unknown, false, Option.none⟩ := by
  simp [assemble, h, notFoundResult]

/-- Claim C6: the QR Payload Parser is a total function that tries
structured decoding, then query-string decoding, then the bare-token
fallback, and returns the empty claim — never an error — when none yields
usable data. -/
theorem parse_qr_fallback (raw : String) :
    (∀ c, tryStructured raw = some c → parseQR raw = c) ∧
    (tryStructured raw = Option.none → ∀ c, tryQueryString raw = some c → parseQR raw = c) ∧
    (tryStructured raw = Option.none → tryQueryString raw = Option.none →
      ∀ c, bareToken raw = some c → parseQR raw = c) ∧
    (tryStructured raw = Option.none → tryQueryString raw = Option.none →
      bareToken raw = Option.none → parseQR raw = emptyClaim) := by
  refine ⟨?_, ?_, ?_, ?_⟩ <;> intros <;> simp_all [parseQR]

/-- Claim C7: a structurally invalid request is rejected as a malformed
input error, and the outcome is independent of the record store — no
store access can influence it. -/
theorem malformed_rejected (req : RawRequest) (h : wellFormedReq req = false) :
    (∀ store, handleRequest store req = Except.error ApiError.malformed) ∧
    (∀ s1 s2, handleRequest s1 req = handleRequest s2 req) := by
  have hmain : ∀ store, handleRequest store req = Except.error ApiError.malformed := by
    intro store
    simp [handleRequest, h]
  exact ⟨hmain, fun s1 s2 => by rw [hmain s1, hmain s2]⟩

/-- Claim C10: the frontend field form includes a key in the outgoing
payload exactly when the corresponding form field is a non-empty string;
with all four fields empty the payload is the empty object. -/
theorem submit_fields_payload_spec (f : FormFields) :
    (("certificate_id" ∈ (submitFieldsPayload f).map Prod.fst) ↔ f.certificate_id ≠ "") ∧
    (("name" ∈ (submitFieldsPayload f).map Prod.fst) ↔ f.name ≠ "") ∧
    (("roll_number" ∈ (submitFieldsPayload f).map Prod.fst) ↔ f.roll_number ≠ "") ∧
    (("course" ∈ (submitFieldsPayload f).map Prod.fst) ↔ f.course ≠ "") ∧
    (f.certificate_id = "" → f.name = "" → f.roll_number = "" → f.course = "" →
      submitFieldsPayload f = []) := by
  obtain ⟨ci, na, ro, co⟩ := f
  by_cases h1 : ci = "" <;> by_cases h2 : na = "" <;>
    by_cases h3 : ro = "" <;> by_cases h4 : co = "" <;>
    simp_all [submitFieldsPayload]


/-- Claim C2: a by-fields resolution whose normalized-field query returns
more than one candidate yields no match with the ambiguity flag set, and
the overall verdict for such a request is `not_found` — no candidate is
silently picked. -/
theorem ambiguous_fields_no_match (store : List CertificateRecord)
    (n ro co fh : Option String)
    (hsup : (n.isSome || ro.isSome || co.isSome) = true)
    (hmany : 1 < (store.filter (fun r => fieldsMatch r n ro co)).length) :
    resolveFields store n ro co = ⟨Option.none, true⟩ ∧
    (∀ req : RawRequest,
      req = ⟨Option.none, some ⟨Option.none, n, ro, co, fh, Option.none⟩⟩ →
      wellFormedReq req = true →
      handleRequest store req = Except.ok notFoundResult) := by
  have h1 : resolveFields store n ro co = ⟨Option.none, true⟩ := by
    rw [resolveFields, if_pos hsup]
    rcases hl : store.filter (fun r => fieldsMatch r n ro co) with _ | ⟨a, _ | ⟨b, t⟩⟩
    · rw [hl] at hmany; simp at hmany
    · rw [hl] at hmany; simp at hmany
    · rfl
  refine ⟨h1, ?_⟩
  rintro req rfl hwf
  rw [handleRequest, if_pos hwf]
  have hres : resolutionOf store ⟨Option.none, some ⟨Option.none, n, ro, co, fh, Option.none⟩⟩
      = ⟨Option.none, true⟩ := by
    simp [resolutionOf, suppliedIdOf, claimOf, qrPayloadOf, fieldsOf, resolve,
      effectiveId, emptyClaim, h1]
  simp [assemble, hres, notFoundResult]

/-- Claim C3: for a request that resolves to a record, `qrVerified` holds
iff a QR claim was present and its claimed id equals the record id
case-insensitively or its claimed digest equals the stored digest; a
disagreeing claim never moves the verdict away from `valid`. -/
theorem qr_verified_iff (store : List CertificateRecord) (req : RawRequest)
    (r : CertificateRecord) (mb : MatchedBy)
    (hres : (resolutionOf store req).found = some (r, mb)) :
    (assemble store req).verdict = Verdict.valid ∧
    ((assemble store req).qrVerified = true ↔
      ∃ raw, qrPayloadOf req = some raw ∧
        ((∃ i, (parseQR raw).claimedId = some i ∧ lowerStr i = lowerStr r.certificateId) ∨
         (∃ d, (parseQR raw).claimedDigest = some d ∧ r.contentDigest = some d))) := by
  have hassemble : assemble store req =
      ⟨Verdict.valid, mb, compareDigests (observedOf req) r.contentDigest,
       (qrPayloadOf req).isSome && qrAgrees (claimOf req) r, some r⟩ := by
    rw [assemble, hres]
  rw [hassemble]
  refine ⟨rfl, ?_⟩
  cases hqp : qrPayloadOf req with
  | none => simp [hqp]
  | some raw =>
    have hclaim : claimOf req = parseQR raw := by rw [claimOf, hqp]
    simp only [hqp, hclaim, Option.isSome_some, Bool.true_and, Option.some.injEq,
      exists_eq_left]
    cases hci : (parseQR raw).claimedId with
    | none =>
      cases hcd : (parseQR raw).claimedDigest with
      | none => simp [qrAgrees, hci, hcd]
      | some d =>
        cases hrd : r.contentDigest with
        | none => simp [qrAgrees, hci, hcd, hrd]
        | some s => simp [qrAgrees, hci, hcd, hrd, eq_comm]
    | some i =>
      cases hcd : (parseQR raw).claimedDigest with
      | none => simp [qrAgrees, hci, hcd]
      | some d =>
        cases hrd : r.contentDigest with
        | none => simp [qrAgrees, hci, hcd, hrd]
        | some s => simp [qrAgrees, hci, hcd, hrd]


lemma find?_eq_of_perm {α : Type} (p : α → Bool) {l1 l2 : List α} (hperm : l1.Perm l2)
    (hu : ∀ a ∈ l1, ∀ b ∈ l1, p a = true → p b = true → a = b) :
    l1.find? p = l2.find? p := by
  cases h1 : l1.find? p with
  | none =>
    cases h2 : l2.find? p with
    | none => rfl
    | some x =>
      have hx : x ∈ l1 := hperm.mem_iff.mpr (List.mem_of_find?_eq_some h2)
      exact absurd (List.find?_some h2) (List.find?_eq_none.mp h1 x hx)
  | some x =>
    cases h2 : l2.find? p with
    | none =>
      have hx : x ∈ l2 := hperm.mem_iff.mp (List.mem_of_find?_eq_some h1)
      exact absurd (List.find?_some h1) (List.find?_eq_none.mp h2 x hx)
    | some y =>
      have hx : x ∈ l1 := List.mem_of_find?_eq_some h1
      have hy : y ∈ l1 := hperm.mem_iff.mpr (List.mem_of_find?_eq_some h2)
      rw [hu x hx y hy (List.find?_some h1) (List.find?_some h2)]

lemma storeWF_symm : Symmetric (fun a b : CertificateRecord =>
    lowerStr a.certificateId ≠ lowerStr b.certificateId) :=
  fun _ _ h => fun e => h e.symm

lemma findByIdCI_perm {s1 s2 : List CertificateRecord} (hwf : StoreWF s1)
    (hperm : s1.Perm s2) (id : String) : findByIdCI s1 id = findByIdCI s2 id := by
  rw [findByIdCI, findByIdCI]
  apply find?_eq_of_perm _ hperm
  intro a ha b hb hpa hpb
  have ha' : lowerStr a.certificateId = lowerStr id := of_decide_eq_true hpa
  have hb' : lowerStr b.certificateId = lowerStr id := of_decide_eq_true hpb
  by_contra hne
  exact List.Pairwise.forall storeWF_symm hwf ha hb hne (ha'.trans hb'.symm)

lemma resolveFields_perm {s1 s2 : List CertificateRecord} (hperm : s1.Perm s2)
    (n ro co : Option String) : resolveFields s1 n ro co = resolveFields s2 n ro co := by
  rw [resolveFields, resolveFields]
  have hpf : (s1.filter (fun r => fieldsMatch r n ro co)).Perm
      (s2.filter (fun r => fieldsMatch r n ro co)) := hperm.filter _
  rcases h1 : s1.filter (fun r => fieldsMatch r n ro co) with _ | ⟨a, _ | ⟨b, t⟩⟩
  · rw [h1] at hpf
    rw [hpf.symm.eq_nil]
  · rw [h1] at hpf
    rw [(List.singleton_perm.mp hpf).symm]
  · rw [h1] at hpf
    have hlen : 2 ≤ (s2.filter (fun r => fieldsMatch r n ro co)).length := by
      rw [← hpf.length_eq]
      simp
    rcases h2 : s2.filter (fun r => fieldsMatch r n ro co) with _ | ⟨a2, _ | ⟨b2, t2⟩⟩
    · rw [h2] at hlen; simp at hlen
    · rw [h2] at hlen; simp at hlen
    · rfl

lemma resolve_perm {s1 s2 : List CertificateRecord} (hwf : StoreWF s1)
    (hperm : s1.Perm s2) (cid qid n ro co : Option String) :
    resolve s1 cid qid n ro co = resolve s2 cid qid n ro co := by
  rcases heff : effectiveId cid qid with _ | ⟨id, mb⟩
  · rw [resolve, resolve, heff]
    exact resolveFields_perm hperm n ro co
  · rw [resolve, resolve, heff]
    show (match findByIdCI s1 id with
          | some r => (⟨some (r, mb), false⟩ : Resolution)
          | Option.none => resolveFields s1 n ro co) =
         (match findByIdCI s2 id with
          | some r => (⟨some (r, mb), false⟩ : Resolution)
          | Option.none => resolveFields s2 n ro co)
    rw [findByIdCI_perm hwf hperm id]
    cases findByIdCI s2 id with
    | none => exact resolveFields_perm hperm n ro co
    | some r => rfl

/-- Claim C8: the pipeline is deterministic — a pure function of the
request and store snapshot — and its outcome does not depend on store
iteration order: any permutation of a well-formed store yields the
identical result. -/
theorem verification_deterministic (req : RawRequest) (s1 s2 : List CertificateRecord)
    (hwf : StoreWF s1) (hperm : s1.Perm s2) :
    handleRequest s1 req = handleRequest s1 req ∧
    handleRequest s1 req = handleRequest s2 req := by
  refine ⟨rfl, ?_⟩
  have hres : resolutionOf s1 req = resolutionOf s2 req := by
    rw [resolutionOf, resolutionOf]
    exact resolve_perm hwf hperm _ _ _ _ _
  rw [handleRequest, handleRequest, assemble, assemble, hres]


theorem resolver_precedence_witness :
    (resolve [recX1] Option.none (some "x1") Option.none Option.none Option.none =
        ⟨some (recX1, MatchedBy.qr), false⟩ ∧
      lowerStr recX1.certificateId = lowerStr "x1") ∧
    (resolve [recX1] (some "X1") Option.none Option.none Option.none Option.none =
        ⟨some (recX1, MatchedBy.certificate_id), false⟩ ∧
      lowerStr recX1.certificateId = lowerStr "X1") ∧
    (resolve [recX1] (some "ZZ") Option.none (some "Amit Kumar") Option.none Option.none =
      resolveFields [recX1] (some "Amit Kumar") Option.none Option.none) ∧
    (resolve [recX1] Option.none Option.none (some "Amit Kumar") Option.none Option.none =
      resolveFields [recX1] (some "Amit Kumar") Option.none Option.none) :=
  ⟨(resolver_precedence [recX1] Option.none (some "x1") Option.none Option.none
      Option.none).1 "x1" recX1 rfl rfl (by decide),
   (resolver_precedence [recX1] (some "X1") Option.none Option.none Option.none
      Option.none).2.1 "X1" recX1 rfl (by decide),
   (resolver_precedence [recX1] (some "ZZ") Option.none (some "Amit Kumar") Option.none
      Option.none).2.2.1 "ZZ" MatchedBy.certificate_id rfl (by decide),
   (resolver_precedence [recX1] Option.none Option.none (some "Amit Kumar") Option.none
      Option.none).2.2.2 rfl rfl⟩

theorem ambiguous_fields_witness :
    resolveFields [recX1, recA3] (some "Amit Kumar") Option.none Option.none =
      ⟨Option.none, true⟩ ∧
    handleRequest [recX1, recA3]
      ⟨Option.none, some ⟨Option.none, some "Amit Kumar", Option.none, Option.none,
        Option.none, Option.none⟩⟩ = Except.ok notFoundResult := by
  have h := ambiguous_fields_no_match [recX1, recA3] (some "Amit Kumar") Option.none
    Option.none Option.none (by decide) (by decide)
  exact ⟨h.1, h.2 _ rfl (by decide)⟩

theorem qr_verified_witness :
    (assemble [recX1] reqC3).verdict = Verdict.valid ∧
    ((assemble [recX1] reqC3).qrVerified = true ↔
      ∃ raw, qrPayloadOf reqC3 = some raw ∧
        ((∃ i, (parseQR raw).claimedId = some i ∧
            lowerStr i = lowerStr recX1.certificateId) ∨
         (∃ d, (parseQR raw).claimedDigest = some d ∧ recX1.contentDigest = some d))) :=
  qr_verified_iff [recX1] reqC3 recX1 MatchedBy.certificate_id (by decide)

theorem integrity_comparator_witness :
    (compareDigests (some "AB12") (some "ab12") = Integrity.digestMatch ↔
      lowerStr "AB12" = lowerStr "ab12") ∧
    (compareDigests (some "AB12") (some "ab12") = Integrity.digestMismatch ↔
      lowerStr "AB12" ≠ lowerStr "ab12") :=
  (integrity_comparator_spec (some "AB12") (some "ab12")).2 "AB12" "ab12" rfl rfl

theorem not_found_terminal_witness :
    assemble [] reqC5 =
      ⟨Verdict.not_found, MatchedBy.none, Integrity.unknown, false, Option.none⟩ :=
  not_found_terminal [] reqC5 (by decide)

theorem parse_qr_fallback_witness :
    parseQR "\x7b\"certificate_id\":\"X1\"\x7d" = ⟨some "X1", Option.none⟩ ∧
    parseQR "certificate_id=X1" = ⟨some "X1", Option.none⟩ ∧
    parseQR "TOK" = ⟨some "TOK", Option.none⟩ ∧
    parseQR "" = emptyClaim :=
  ⟨(parse_qr_fallback "\x7b\"certificate_id\":\"X1\"\x7d").1
      ⟨some "X1", Option.none⟩ (by decide),
   (parse_qr_fallback "certificate_id=X1").2.1 (by decide)
      ⟨some "X1", Option.none⟩ (by decide),
   (parse_qr_fallback "TOK").2.2.1 (by decide) (by decide)
      ⟨some "TOK", Option.none⟩ (by decide),
   (parse_qr_fallback "").2.2.2 (by decide) (by decide) (by decide)⟩

theorem malformed_rejected_witness :
    handleRequest [] ⟨Option.none, Option.none⟩ = Except.error ApiError.malformed :=
  (malformed_rejected ⟨Option.none, Option.none⟩ (by decide)).1 []

theorem verification_deterministic_witness :
    handleRequest [recX1, recY2] reqC8 = handleRequest [recX1, recY2] reqC8 ∧
    handleRequest [recX1, recY2] reqC8 = handleRequest [recY2, recX1] reqC8 :=
  verification_deterministic reqC8 [recX1, recY2] [recY2, recX1]
    (by rw [StoreWF]; decide) (by decide)

theorem submit_fields_witness :
    submitFieldsPayload ⟨"", "", "", ""⟩ = [] :=
  (submit_fields_payload_spec ⟨"", "", "", ""⟩).2.2.2.2 rfl rfl rfl rfl

end OcrVerify
